import Mathlib

/-!
Verification development for STSD (Spotify True Shuffle Daemon).

The play-count store (`src/database.js`), the shuffle-session state
(`src/shuffleState.js`), the start-shuffle control operation and the
periodic queue-monitoring tick (`src/index.js`) are embedded shallowly:

* the SQLite table `play_counts` becomes a list of `PlayRecord`s
  (`Db`), with the `PRIMARY KEY (context_id, track_id)` uniqueness
  expressed as the predicate `dbKeysUnique`;
* `DATETIME` timestamps become `Option Nat` (`none` = SQL `NULL`);
* each fallible remote call (Spotify API) is driven by an explicit
  oracle argument (`Bool` / `Nat → Bool`), and `Math.random` by an
  explicit index function, so every function is total and executable;
* the observable actions of a code path (playlist/queue additions,
  play-count increments, inter-call delays, …) are recorded in a trace
  of `Ev` events so that ordering properties can be stated.
-/

/-- A row of the SQLite table `play_counts`
(`context_id`, `track_id`, `play_count`, `last_played`);
`created_at` is never read by the program and is omitted. -/
structure PlayRecord where
  context_id : String
  track_id : String
  play_count : Nat
  last_played : Option Nat
  deriving DecidableEq, Repr, Inhabited

/-- The play-count store: the rows of the `play_counts` table. -/
abbrev Db := List PlayRecord

/-- A track descriptor as produced by `spotify.js` `getContextTracks`
(`id`, `uri`, `name`, `artists`, `duration_ms`). -/
structure TrackInfo where
  id : String
  uri : String
  name : String
  artists : String
  duration_ms : Nat
  deriving DecidableEq, Repr, Inhabited

/-- The `WHERE context_id = ? AND track_id = ?` primary-key match. -/
def rowKey (c t : String) (r : PlayRecord) : Bool :=
  r.context_id == c && r.track_id == t

/-- `PRIMARY KEY (context_id, track_id)`: the key pairs of the rows
are pairwise distinct. -/
def dbKeysUnique (db : Db) : Prop :=
  (db.map (fun r => (r.context_id, r.track_id))).Nodup

instance : DecidablePred dbKeysUnique := fun db => by
  unfold dbKeysUnique; infer_instance

/-- `getPlayCount`: `SELECT play_count FROM play_counts WHERE …`;
resolves `row ? row.play_count : 0`. -/
def getPlayCount (db : Db) (c t : String) : Nat :=
  match db.find? (rowKey c t) with
  | some r => r.play_count
  | none => 0

/-- `incrementPlayCount`'s upsert applied to the rows:
`INSERT INTO play_counts (…) VALUES (?, ?, 1, CURRENT_TIMESTAMP)
ON CONFLICT(context_id, track_id) DO UPDATE SET
play_count = play_count + 1, last_played = CURRENT_TIMESTAMP`.
Under the primary-key invariant the conflicting row is unique, so the
update touches the first (only) matching row; absent a match the new
row is inserted. `now` stands for `CURRENT_TIMESTAMP`. -/
def upsertRows (c t : String) (now : Nat) : Db → Db
  | [] => [⟨c, t, 1, some now⟩]
  | r :: rs =>
    if rowKey c t r then
      { r with play_count := r.play_count + 1, last_played := some now } :: rs
    else
      r :: upsertRows c t now rs

/-- `incrementPlayCount(contextId, trackId)`: runs the upsert and
resolves `this.changes` — the number of rows the statement affected,
which for this single-row upsert is `1` on both paths. -/
def incrementPlayCount (db : Db) (c t : String) (now : Nat) : Db × Nat :=
  (upsertRows c t now db, 1)

/-- SQLite `ORDER BY last_played ASC` on the nullable column:
`NULL` sorts before every non-`NULL` value. -/
def lastPlayedLE : Option Nat → Option Nat → Prop
  | none, _ => True
  | some _, none => False
  | some a, some b => a ≤ b

instance : DecidableRel lastPlayedLE := fun a b =>
  match a, b with
  | none, _ => isTrue trivial
  | some _, none => isFalse id
  | some a, some b => Nat.decLe a b

/-- `ORDER BY play_count ASC, last_played ASC`. -/
def rowOrd (r1 r2 : PlayRecord) : Prop :=
  r1.play_count < r2.play_count ∨
    (r1.play_count = r2.play_count ∧ lastPlayedLE r1.last_played r2.last_played)

instance : DecidableRel rowOrd := fun r1 r2 => by
  unfold rowOrd; infer_instance

theorem lastPlayedLE_total (a b : Option Nat) : lastPlayedLE a b ∨ lastPlayedLE b a := by
  cases a <;> cases b <;> simp [lastPlayedLE] <;> omega

theorem lastPlayedLE_trans {a b c : Option Nat}
    (h1 : lastPlayedLE a b) (h2 : lastPlayedLE b c) : lastPlayedLE a c := by
  cases a <;> cases b <;> cases c <;> simp_all [lastPlayedLE] <;> omega

instance : IsTotal PlayRecord rowOrd where
  total r1 r2 := by
    unfold rowOrd
    rcases Nat.lt_trichotomy r1.play_count r2.play_count with h | h | h
    · exact Or.inl (Or.inl h)
    · rcases lastPlayedLE_total r1.last_played r2.last_played with h' | h'
      · exact Or.inl (Or.inr ⟨h, h'⟩)
      · exact Or.inr (Or.inr ⟨h.symm, h'⟩)
    · exact Or.inr (Or.inl h)

instance : IsTrans PlayRecord rowOrd where
  trans r1 r2 r3 h1 h2 := by
    unfold rowOrd at *
    rcases h1 with h1 | ⟨h1, h1'⟩ <;> rcases h2 with h2 | ⟨h2, h2'⟩
    · exact Or.inl (h1.trans h2)
    · exact Or.inl (h2 ▸ h1)
    · exact Or.inl (h1 ▸ h2)
    · exact Or.inr ⟨h1.trans h2, lastPlayedLE_trans h1' h2'⟩

/-- `getContextPlayCounts(contextId)`:
`SELECT track_id, play_count, last_played FROM play_counts
WHERE context_id = ? ORDER BY play_count ASC, last_played ASC`.
The rows of the context, sorted by the two-component key. -/
def getContextPlayCounts (db : Db) (c : String) : List PlayRecord :=
  (db.filter (fun r => r.context_id == c)).insertionSort rowOrd

/-- `ORDER BY last_played DESC` (most recent first, `NULL`s last). -/
def rowRecentOrd (r1 r2 : PlayRecord) : Prop :=
  lastPlayedLE r2.last_played r1.last_played

instance : DecidableRel rowRecentOrd := fun r1 r2 => by
  unfold rowRecentOrd; infer_instance

/-- `getRecentlyAddedTracks(contextId, limit)`:
`SELECT … WHERE context_id = ? ORDER BY last_played DESC LIMIT ?`. -/
def getRecentlyAddedTracks (db : Db) (c : String) (lim : Nat) : List PlayRecord :=
  ((db.filter (fun r => r.context_id == c)).insertionSort rowRecentOrd).take lim

/-- Modelled from the spec: `database.getLeastPlayedTracks` is invoked
by `src/index.js` (`addOneLeastPlayedTrack` and the queue-monitoring
loop) but its definition in `database.js` is not among the provided
source files, which only contain the earlier revision of the module.
Per the spec, `leastPlayed(context)` returns "all records sharing the
minimum play_count": the rows of the context whose play count is less
than or equal to every other row's. -/
def getLeastPlayedTracks (db : Db) (c : String) : List PlayRecord :=
  let rows := getContextPlayCounts db c
  rows.filter (fun r => rows.all (fun q => r.play_count ≤ q.play_count))

/-- `resetAllPlayCounts`:
`UPDATE play_counts SET play_count = 0, last_played = NULL`;
resolves `this.changes`, the number of rows affected. -/
def resetAllPlayCounts (db : Db) : Db × Nat :=
  (db.map (fun r => { r with play_count := 0, last_played := none }), db.length)

/-- One `INSERT OR IGNORE INTO play_counts (…) VALUES (?, ?, 0, NULL)`
of `syncContextTracks`: inserts the row only when the primary key is
not already taken. -/
def insertIgnore (db : Db) (c uri : String) : Db :=
  if (db.find? (rowKey c uri)).isSome then db else db ++ [⟨c, uri, 0, none⟩]

/-- The insert sequence of `syncContextTracks` inside its transaction:
each track's insert either fails (per the `fails` oracle, its error
collected) or takes effect; all inserts are attempted. Returns the
resulting rows and the number of collected errors. -/
def syncRun (c : String) (fails : Nat → Bool) : Db → Nat → List TrackInfo → Db × Nat
  | db, _, [] => (db, 0)
  | db, i, tr :: rest =>
    if fails i then
      let (db', e) := syncRun c fails db (i + 1) rest
      (db', e + 1)
    else
      syncRun c fails (insertIgnore db c tr.uri) (i + 1) rest

/-- `syncContextTracks(contextId, tracks)`: inside a transaction,
`INSERT OR IGNORE` each track at count 0 / `NULL`; when any insert
errored, `ROLLBACK` (the store reverts to its pre-call rows) and
reject; otherwise `COMMIT` and resolve `tracks.length`. An empty track
list commits immediately and resolves 0. -/
def syncContextTracks (db : Db) (c : String) (tracks : List TrackInfo)
    (fails : Nat → Bool) : Db × Except String Nat :=
  if tracks.isEmpty then (db, .ok 0)
  else
    let (db', errs) := syncRun c fails db 0 tracks
    if errs > 0 then
      (db, .error ("Failed to sync " ++ toString errs ++ " tracks"))
    else
      (db', .ok tracks.length)

/-- The in-memory `ShuffleState` of `src/shuffleState.js`. -/
structure ShuffleState where
  isActive : Bool
  currentContext : Option String
  currentTracks : List TrackInfo
  lastManagedTrack : Option String
  lastCheckTime : Option Nat
  stsdPlaylistId : Option String
  initialTrackUri : Option String
  deriving DecidableEq, Repr, Inhabited

/-- The `ShuffleState` constructor's initial values. -/
def initialShuffleState : ShuffleState :=
  ⟨false, none, [], none, none, none, none⟩

/-- `isManagingContext(contextUri)`:
`this.isActive && this.currentContext === contextUri`. -/
def isManagingContext (st : ShuffleState) (ctx : String) : Bool :=
  st.isActive && st.currentContext == some ctx

/-- `startShuffle(contextUri, tracks)`: activates the session for the
context; `stsdPlaylistId` is deliberately not touched by the source. -/
def shuffleStateStart (st : ShuffleState) (ctx : String)
    (tracks : List TrackInfo) (now : Nat) : ShuffleState :=
  { st with
    isActive := true
    currentContext := some ctx
    currentTracks := tracks
    lastManagedTrack := none
    lastCheckTime := some now
    initialTrackUri := none }

/-- `setStsdPlaylistId(playlistId)`. -/
def setStsdPlaylistId (st : ShuffleState) (pid : String) : ShuffleState :=
  { st with stsdPlaylistId := some pid }

/-- `setInitialTrack(trackUri)`. -/
def setInitialTrack (st : ShuffleState) (uri : String) : ShuffleState :=
  { st with initialTrackUri := some uri }

/-- Observable actions of the embedded code paths. -/
inductive Ev where
  /-- a row was picked from the least-played set -/
  | selectTrack (uri : String)
  /-- `spotifyClient.addToPlaylist` returned success -/
  | addPlaylistOk (pid uri : String)
  /-- `spotifyClient.addToPlaylist` threw -/
  | addPlaylistErr (pid uri : String)
  /-- `spotifyClient.addToQueue` returned success -/
  | addQueueOk (uri : String)
  /-- `spotifyClient.addToQueue` threw -/
  | addQueueErr (uri : String)
  /-- `database.incrementPlayCount` ran -/
  | incCount (uri : String)
  /-- an `await setTimeout` pause of the given milliseconds -/
  | delayMs (ms : Nat)
  /-- `continue`: the selected row had no full track info -/
  | skipNoInfo (uri : String)
  /-- `break`: the least-played set was empty -/
  | stopEmpty
  /-- `createFreshSTSDPlaylist` (removes old `[STSD]` playlists, creates a new one) -/
  | createFresh (name : String)
  /-- `createFreshSTSDPlaylist` threw -/
  | createFreshErr
  /-- `startPlaybackWithShuffle` succeeded for the given context -/
  | playbackStart (uri : String)
  deriving DecidableEq, Repr

/-- The uri added when the event is a successful remote addition. -/
def evAddOkUri : Ev → Option String
  | .addPlaylistOk _ u => some u
  | .addQueueOk u => some u
  | _ => none

/-- Whether the event is a failed remote addition. -/
def evAddErr : Ev → Bool
  | .addPlaylistErr _ _ => true
  | .addQueueErr _ => true
  | _ => false

/-- Whether the event is a successful remote addition (of any uri). -/
def evAddOk (e : Ev) : Bool :=
  (evAddOkUri e).isSome

/-- `seen` holds the uris whose remote addition has succeeded so far;
the trace passes iff every `incCount u` is preceded by a successful
remote addition of `u`. -/
def incsCovered (seen : List String) : List Ev → Bool
  | [] => true
  | .incCount u :: rest => seen.contains u && incsCovered seen rest
  | e :: rest =>
    match evAddOkUri e with
    | some u => incsCovered (u :: seen) rest
    | none => incsCovered seen rest

/-- A failed remote addition is the last event of its trace: the code
path `break`s (or returns) on the first failure. -/
def errStops : List Ev → Bool
  | [] => true
  | e :: rest => if evAddErr e then rest.isEmpty else errStops rest

/-- `Array.prototype[Math.floor(Math.random() * array.length)]`:
`getRandomElement` with the random draw supplied as a natural number
(reduced modulo the length). -/
def pickRandom (rnd : Nat) (l : List PlayRecord) : PlayRecord :=
  l.getD (rnd % l.length) default

/-- `String.prototype.includes(pat)` on the underlying characters. -/
def listHasSub (pat : List Char) : List Char → Bool
  | [] => pat.isEmpty
  | c :: rest => pat.isPrefixOf (c :: rest) || listHasSub pat rest

/-- JavaScript `s.includes(pat)`. -/
def strIncludes (s pat : String) : Bool :=
  listHasSub pat.data s.data

/-- JavaScript `String.prototype.split(sep)` on the underlying
characters. -/
def splitOnChar (sep : Char) : List Char → List (List Char)
  | [] => [[]]
  | c :: rest =>
    if c == sep then [] :: splitOnChar sep rest
    else
      match splitOnChar sep rest with
      | [] => [[c]]
      | h :: t => (c :: h) :: t

/-- `contextUri.split(':')[1]`: the type component of a Spotify URI
(`spotify:{type}:{id}`), as computed by `getContextTracks`. -/
def contextTypeOf (uri : String) : String :=
  match (splitOnChar ':' uri.data).getD 1 [] with
  | l => ⟨l⟩

/-- Result of `addOneLeastPlayedTrack` in `src/index.js`. -/
inductive AddOneResult where
  /-- `{ success: true, trackUri, trackInfo }` -/
  | added (uri : String) (info : TrackInfo)
  /-- `return false`: the least-played query returned no rows -/
  | noTracks
  /-- `return false`: no full track info for the selected row -/
  | noTrackInfo
  /-- `{ success: false }`: no STSD playlist id available -/
  | noPlaylistId
  /-- `{ success: false }`: the playlist addition threw -/
  | remoteErr
  deriving DecidableEq, Repr

/-- Whether the result is the `success: true` object. -/
def AddOneResult.isAdded : AddOneResult → Bool
  | .added _ _ => true
  | _ => false

/-- `addOneLeastPlayedTrack(contextUri, allTracks, playlistId)`:
query the least-played rows, pick one at random, look up its full
track info in `allTracks`, resolve the playlist id
(`playlistId || shuffleState.getStsdPlaylistId()`), add the track to
the playlist, wait 500 ms, then increment its play count. `rnd`
supplies the random draw, `addErr` whether `addToPlaylist` throws,
`statePid` the state's stored playlist id. Returns the result, the
updated store, and the event trace. -/
def addOneLeastPlayedTrack (db : Db) (ctx : String) (allTracks : List TrackInfo)
    (pid? statePid : Option String) (rnd : Nat) (addErr : Bool) (now : Nat) :
    AddOneResult × Db × List Ev :=
  let lp := getLeastPlayedTracks db ctx
  if lp.isEmpty then (.noTracks, db, [])
  else
    let sel := pickRandom rnd lp
    match allTracks.find? (fun tr => tr.uri == sel.track_id) with
    | none => (.noTrackInfo, db, [.selectTrack sel.track_id])
    | some full =>
      match pid?.orElse (fun _ => statePid) with
      | none => (.noPlaylistId, db, [.selectTrack sel.track_id])
      | some pid =>
        if addErr then
          (.remoteErr, db, [.selectTrack sel.track_id, .addPlaylistErr pid sel.track_id])
        else
          let db1 := (incrementPlayCount db ctx sel.track_id now).1
          (.added sel.track_id full, db1,
            [.selectTrack sel.track_id, .addPlaylistOk pid sel.track_id,
             .delayMs 500, .incCount sel.track_id])

/-- The `for (let i = 0; i < tracksNeeded; i++)` body of the
queue-monitoring interval: select a least-played row, look up its
track info in the session's track list (`continue` when absent,
skipping the delay), `addToQueue` (a throw is caught and `break`s the
loop), increment the play count, then `await` a 1000 ms delay unless
this was the last iteration. `fuel` is the number of remaining
iterations (`tracksNeeded - i`). -/
def topUpLoop (ctx : String) (allTracks : List TrackInfo) (rnd : Nat → Nat)
    (addErr : Nat → Bool) (now : Nat) : Nat → Nat → Db → Db × List Ev
  | 0, _, db => (db, [])
  | fuel + 1, i, db =>
    let lp := getLeastPlayedTracks db ctx
    if lp.isEmpty then (db, [.stopEmpty])
    else
      let sel := pickRandom (rnd i) lp
      match allTracks.find? (fun tr => tr.uri == sel.track_id) with
      | none =>
        let (db', evs) := topUpLoop ctx allTracks rnd addErr now fuel (i + 1) db
        (db', .selectTrack sel.track_id :: .skipNoInfo sel.track_id :: evs)
      | some _ =>
        if addErr i then
          (db, [.selectTrack sel.track_id, .addQueueErr sel.track_id])
        else
          let db1 := (incrementPlayCount db ctx sel.track_id now).1
          let (db', evs) := topUpLoop ctx allTracks rnd addErr now fuel (i + 1) db1
          (db', .selectTrack sel.track_id :: .addQueueOk sel.track_id ::
            .incCount sel.track_id ::
            ((if 0 < fuel then [Ev.delayMs 1000] else []) ++ evs))

/-- The queue-recognition step of the queue-monitoring interval:
filter every occurrence of the session's initial track out of the
queue (a Spotify API duplication artifact), then keep the
recently-added track uris (`getRecentlyAddedTracks(ctx, 10)`) that are
still present in the filtered queue. -/
def tickStillInQueue (st : ShuffleState) (db : Db) (ctx : String)
    (queue : List String) : List String :=
  let filteredQueue :=
    match st.initialTrackUri with
    | some initial => queue.filter (fun q => q ≠ initial)
    | none => queue
  ((getRecentlyAddedTracks db ctx 10).map (·.track_id)).filter
    (fun u => filteredQueue.contains u)

/-- One run of the queue-monitoring `setInterval` callback
(`src/index.js`): guard on an active session, authentication, current
playback from the STSD playlist (`uri.includes(getStsdPlaylistId())`,
where a `null` id is coerced by JavaScript to the string `"null"`) and
a retrievable queue; filter every occurrence of the session's initial
track out of the queue; count how many recently-added tracks are still
in the filtered queue; top the queue up to the target size. -/
def queueMonitorTick (active auth : Bool) (playbackCtxUri : Option String)
    (st : ShuffleState) (ctx : String) (allTracks : List TrackInfo)
    (target : Nat) (queueFetch : Option (List String)) (rnd : Nat → Nat)
    (addErr : Nat → Bool) (now : Nat) (db : Db) : Db × List Ev :=
  if !active then (db, [])
  else if !auth then (db, [])
  else
    match playbackCtxUri with
    | none => (db, [])
    | some uri =>
      if !(strIncludes uri (st.stsdPlaylistId.getD "null")) then (db, [])
      else
        match queueFetch with
        | none => (db, [])
        | some queue =>
          let stillInQueue := tickStillInQueue st db ctx queue
          let tracksNeeded := target - stillInQueue.length
          if 0 < tracksNeeded then
            topUpLoop ctx allTracks rnd addErr now tracksNeeded 0 db
          else (db, [])

/-- The `for (let i = 0; i < remainingTracks; i++)` queue-population
loop of the start-shuffle handler: a 1500 ms delay before each
iteration, then select / look up info (`continue` when absent) /
`addToQueue` (`break` when it throws) / increment. -/
def startQueueLoop (ctx : String) (allTracks : List TrackInfo) (rnd : Nat → Nat)
    (addErr : Nat → Bool) (now : Nat) : Nat → Nat → Db → Db × List Ev
  | 0, _, db => (db, [])
  | fuel + 1, i, db =>
    let lp := getLeastPlayedTracks db ctx
    if lp.isEmpty then (db, [.delayMs 1500, .stopEmpty])
    else
      let sel := pickRandom (rnd i) lp
      match allTracks.find? (fun tr => tr.uri == sel.track_id) with
      | none =>
        let (db', evs) := startQueueLoop ctx allTracks rnd addErr now fuel (i + 1) db
        (db', .delayMs 1500 :: .selectTrack sel.track_id :: .skipNoInfo sel.track_id :: evs)
      | some _ =>
        if addErr i then
          (db, [.delayMs 1500, .selectTrack sel.track_id, .addQueueErr sel.track_id])
        else
          let db1 := (incrementPlayCount db ctx sel.track_id now).1
          let (db', evs) := startQueueLoop ctx allTracks rnd addErr now fuel (i + 1) db1
          (db', .delayMs 1500 :: .selectTrack sel.track_id :: .addQueueOk sel.track_id ::
            .incCount sel.track_id :: evs)

/-- The value `getContextTracks` resolves with. -/
structure ContextData where
  contextUri : String
  ctype : String
  cid : String
  totalTracks : Nat
  tracks : List TrackInfo
  deriving DecidableEq, Repr

/-- Oracles for the remote calls made by the start-shuffle handler. -/
structure StartEnv where
  /-- `spotifyClient.isUserAuthenticated()` -/
  auth : Bool
  /-- `getCurrentPlayback()?.context?.uri` -/
  playbackCtxUri : Option String
  /-- outcome of `getContextTracks` (`error` = the thrown message) -/
  fetchResult : Except String ContextData
  /-- per-insert failures inside `syncContextTracks` -/
  syncFails : Nat → Bool
  /-- whether `createFreshSTSDPlaylist` throws -/
  createErr : Bool
  /-- the id of the freshly created STSD playlist -/
  freshPid : String
  /-- whether `addToPlaylist` throws inside `addOneLeastPlayedTrack` -/
  addOneErr : Bool
  /-- whether `startPlaybackWithShuffle` returns true -/
  playbackStarts : Bool
  /-- per-iteration failures of `addToQueue` in the queue-population loop -/
  queueAddErr : Nat → Bool
  /-- the `Math.random` draws, by call index -/
  rnd : Nat → Nat
  /-- `PLAYLIST_TARGET_SIZE` -/
  target : Nat
  /-- `CURRENT_TIMESTAMP` / `Date.now()` -/
  now : Nat

/-- The HTTP response of `GET /api/shuffle/start`. -/
inductive StartResponse where
  /-- 401 `Not authenticated with Spotify` -/
  | notAuthenticated
  /-- 400 `No active playback context found…` -/
  | noPlaybackContext
  /-- 200 `Already shuffling this context` (`alreadyActive: true`) -/
  | alreadyActive (uri : String)
  /-- 400 `Cannot shuffle this playlist` — the distinguished
  Spotify-generated-playlist message -/
  | cannotShufflePlaylist (uri : String)
  /-- 500 `Failed to start shuffle` (generic, from the outer catch) -/
  | failedGeneric (details : String)
  /-- 500 `Failed to add track to fresh playlist` -/
  | addTrackFailed
  /-- 500 `Failed to start fresh playlist playback` -/
  | playbackStartFailed
  /-- 200 `Shuffle started successfully` -/
  | started (uri ctype cid : String) (totalTracks : Nat)
  deriving DecidableEq, Repr

/-- The `GET /api/shuffle/start` handler of `src/index.js`: resolve the
context from current playback; report `alreadyActive` when the session
already manages it; fetch the context tracks, classifying a thrown
message containing `'404'` on a context uri containing `'playlist'` as
the distinguished `Cannot shuffle this playlist` response; sync the
store; create a fresh STSD playlist; activate the session; add one
least-played track to the playlist; record it as the initial track;
start playback; populate the queue with `target - 1` more tracks. -/
def startShuffleHandler (env : StartEnv) (st : ShuffleState) (db : Db) :
    StartResponse × ShuffleState × Db × List Ev :=
  if !env.auth then (.notAuthenticated, st, db, [])
  else
    match env.playbackCtxUri with
    | none => (.noPlaybackContext, st, db, [])
    | some ctx =>
      if isManagingContext st ctx then (.alreadyActive ctx, st, db, [])
      else
        match env.fetchResult with
        | .error msg =>
          if strIncludes msg "404" && strIncludes ctx "playlist" then
            (.cannotShufflePlaylist ctx, st, db, [])
          else (.failedGeneric msg, st, db, [])
        | .ok cd =>
          match syncContextTracks db ctx cd.tracks env.syncFails with
          | (_, .error e) => (.failedGeneric e, st, db, [])
          | (db1, .ok _) =>
            if env.createErr then (.failedGeneric "createFreshSTSDPlaylist", st, db1, [.createFreshErr])
            else
              let name := "[STSD] " ++ cd.ctype ++ " " ++ cd.cid
              let pid := env.freshPid
              let st1 := setStsdPlaylistId (shuffleStateStart st ctx cd.tracks env.now) pid
              match addOneLeastPlayedTrack db1 ctx cd.tracks (some pid) st1.stsdPlaylistId
                  (env.rnd 0) env.addOneErr env.now with
              | (.added uri _, db2, evs1) =>
                let st2 := setInitialTrack st1 uri
                if !env.playbackStarts then
                  (.playbackStartFailed, st2, db2,
                    .createFresh name :: evs1 ++ [.delayMs 3000])
                else
                  let (db3, evs2) := startQueueLoop ctx cd.tracks env.rnd env.queueAddErr
                    env.now (env.target - 1) 0 db2
                  (.started cd.contextUri cd.ctype cd.cid cd.totalTracks, st2, db3,
                    .createFresh name :: evs1 ++
                      [.delayMs 3000, .playbackStart ("spotify:playlist:" ++ pid)] ++ evs2)
              | (_, db2, evs1) =>
                (.addTrackFailed, st1, db2, .createFresh name :: evs1)

/-- `N` sequential `incrementPlayCount` calls on the same key, the
`k`-th at timestamp `times k`. -/
def iterIncrement (c t : String) (times : Nat → Nat) (db : Db) : Nat → Db
  | 0 => db
  | n + 1 => upsertRows c t (times n) (iterIncrement c t times db n)

/-- Whether the event is a play-count increment. -/
def evIsInc : Ev → Bool
  | .incCount _ => true
  | _ => false

/-- Every row of the context has full track info in the session's
captured track list (the `allTracks.find?` lookup succeeds). -/
def TracksCover (allTracks : List TrackInfo) (ctx : String) (db : Db) : Prop :=
  ∀ r ∈ db, r.context_id = ctx →
    (allTracks.find? (fun tr => tr.uri == r.track_id)).isSome = true

/-- The store has at least one row for the context. -/
def HasCtxRow (ctx : String) (db : Db) : Prop :=
  ∃ r ∈ db, r.context_id = ctx

instance : ∀ (a : List TrackInfo) (c : String) (db : Db), Decidable (TracksCover a c db) :=
  fun a c db => by unfold TracksCover; infer_instance

instance : ∀ (c : String) (db : Db), Decidable (HasCtxRow c db) :=
  fun c db => by unfold HasCtxRow; infer_instance

/-! ### Basic facts about the store queries -/

theorem getContextPlayCounts_perm (db : Db) (c : String) :
    (getContextPlayCounts db c).Perm (db.filter (fun r => r.context_id == c)) :=
  List.perm_insertionSort rowOrd _

theorem mem_getContextPlayCounts {db : Db} {c : String} {r : PlayRecord} :
    r ∈ getContextPlayCounts db c ↔ r ∈ db ∧ r.context_id = c := by
  unfold getContextPlayCounts
  rw [List.mem_insertionSort, List.mem_filter]
  simp

theorem getContextPlayCounts_eq_nil_iff {db : Db} {c : String} :
    getContextPlayCounts db c = [] ↔ db.filter (fun r => r.context_id == c) = [] := by
  constructor
  · intro h
    have := (getContextPlayCounts_perm db c).length_eq
    rw [h] at this
    exact List.length_eq_zero.mp this.symm
  · intro h
    unfold getContextPlayCounts
    rw [h]
    rfl

theorem exists_min_play_count :
    ∀ (l : List PlayRecord), l ≠ [] → ∃ r ∈ l, ∀ q ∈ l, r.play_count ≤ q.play_count := by
  intro l
  induction l with
  | nil => intro h; exact absurd rfl h
  | cons a t ih =>
    intro _
    rcases eq_or_ne t [] with rfl | ht
    · exact ⟨a, List.mem_singleton.mpr rfl, by simp⟩
    · obtain ⟨r, hr, hmin⟩ := ih ht
      by_cases har : a.play_count ≤ r.play_count
      · refine ⟨a, List.mem_cons_self a t, ?_⟩
        intro q hq
        rcases List.mem_cons.mp hq with rfl | hq
        · exact le_refl _
        · exact har.trans (hmin q hq)
      · refine ⟨r, List.mem_cons_of_mem a hr, ?_⟩
        intro q hq
        rcases List.mem_cons.mp hq with rfl | hq
        · omega
        · exact hmin q hq

theorem mem_getLeastPlayedTracks {db : Db} {c : String} {r : PlayRecord} :
    r ∈ getLeastPlayedTracks db c ↔
      r ∈ getContextPlayCounts db c ∧
        ∀ q ∈ getContextPlayCounts db c, r.play_count ≤ q.play_count := by
  unfold getLeastPlayedTracks
  rw [List.mem_filter, List.all_eq_true]
  simp

theorem getLeastPlayedTracks_ne_nil {db : Db} {c : String}
    (h : getContextPlayCounts db c ≠ []) : getLeastPlayedTracks db c ≠ [] := by
  obtain ⟨r, hr, hmin⟩ := exists_min_play_count _ h
  intro hnil
  have : r ∈ getLeastPlayedTracks db c := mem_getLeastPlayedTracks.mpr ⟨hr, hmin⟩
  rw [hnil] at this
  exact List.not_mem_nil r this

theorem getLeastPlayedTracks_subset {db : Db} {c : String} {r : PlayRecord}
    (h : r ∈ getLeastPlayedTracks db c) : r ∈ db ∧ r.context_id = c :=
  mem_getContextPlayCounts.mp (mem_getLeastPlayedTracks.mp h).1

theorem pickRandom_mem (rnd : Nat) {l : List PlayRecord} (h : l ≠ []) :
    pickRandom rnd l ∈ l := by
  unfold pickRandom
  have hlen : 0 < l.length := List.length_pos.mpr h
  rw [List.getD_eq_getElem?_getD, List.getElem?_eq_getElem (Nat.mod_lt _ hlen)]
  exact List.getElem_mem _

/-! ### Facts about the upsert of `incrementPlayCount` -/

theorem rowKey_update (c t : String) (r : PlayRecord) (pc : Nat) (lp : Option Nat) :
    rowKey c t { r with play_count := pc, last_played := lp } = rowKey c t r := rfl

theorem upsertRows_find? (c t : String) (now : Nat) (db : Db) :
    (upsertRows c t now db).find? (rowKey c t) =
      some (match db.find? (rowKey c t) with
        | some r => { r with play_count := r.play_count + 1, last_played := some now }
        | none => ⟨c, t, 1, some now⟩) := by
  induction db with
  | nil =>
    simp [upsertRows, List.find?, rowKey]
  | cons r rs ih =>
    by_cases h : rowKey c t r
    · have hb : rowKey c t { r with play_count := r.play_count + 1, last_played := some now } = true := h
      simp only [upsertRows, h, if_true]
      rw [List.find?_cons_of_pos _ hb, List.find?_cons_of_pos _ h]
    · simp only [upsertRows, h, Bool.false_eq_true, if_false]
      rw [List.find?_cons_of_neg _ (by simp [h]), List.find?_cons_of_neg _ (by simp [h]), ih]

theorem getPlayCount_upsert (c t : String) (now : Nat) (db : Db) :
    getPlayCount (upsertRows c t now db) c t = getPlayCount db c t + 1 := by
  unfold getPlayCount
  rw [upsertRows_find? c t now db]
  cases db.find? (rowKey c t) <;> simp

theorem getPlayCount_iterIncrement (c t : String) (times : Nat → Nat) (db : Db) :
    ∀ n, getPlayCount (iterIncrement c t times db n) c t = getPlayCount db c t + n := by
  intro n
  induction n with
  | zero => rfl
  | succ n ih =>
    show getPlayCount (upsertRows c t (times n) _) c t = _
    rw [getPlayCount_upsert, ih]
    omega

theorem upsertRows_keys_superset (c t : String) (now : Nat) {db : Db} {r : PlayRecord}
    (h : r ∈ db) :
    ∃ r' ∈ upsertRows c t now db, r'.context_id = r.context_id ∧ r'.track_id = r.track_id := by
  induction db with
  | nil => exact absurd h (List.not_mem_nil r)
  | cons a rs ih =>
    rcases List.mem_cons.mp h with heq | hmem
    · subst heq
      by_cases ha : rowKey c t r
      · refine ⟨{ r with play_count := r.play_count + 1, last_played := some now }, ?_, rfl, rfl⟩
        simp [upsertRows, ha]
      · refine ⟨r, ?_, rfl, rfl⟩
        simp [upsertRows, ha]
    · by_cases ha : rowKey c t a
      · refine ⟨r, ?_, rfl, rfl⟩
        simp [upsertRows, ha, hmem]
      · obtain ⟨r', hr', he⟩ := ih hmem
        exact ⟨r', by simp [upsertRows, ha, hr'], he⟩

theorem upsertRows_keys_subset {c t : String} {now : Nat} {db : Db} {r' : PlayRecord}
    (h : r' ∈ upsertRows c t now db) :
    (r'.context_id = c ∧ r'.track_id = t) ∨
      ∃ r ∈ db, r'.context_id = r.context_id ∧ r'.track_id = r.track_id := by
  induction db with
  | nil =>
    simp only [upsertRows, List.mem_singleton] at h
    subst h
    exact Or.inl ⟨rfl, rfl⟩
  | cons a rs ih =>
    by_cases ha : rowKey c t a
    · simp only [upsertRows, ha, if_true, List.mem_cons] at h
      rcases h with rfl | h
      · exact Or.inr ⟨a, List.mem_cons_self a rs, rfl, rfl⟩
      · exact Or.inr ⟨r', List.mem_cons_of_mem a h, rfl, rfl⟩
    · simp only [upsertRows, ha, Bool.false_eq_true, if_false, List.mem_cons] at h
      rcases h with rfl | h
      · exact Or.inr ⟨r', List.mem_cons_self r' rs, rfl, rfl⟩
      · rcases ih h with h | ⟨r, hr, he⟩
        · exact Or.inl h
        · exact Or.inr ⟨r, List.mem_cons_of_mem a hr, he⟩

/-! ### Facts about `syncContextTracks` -/

theorem insertIgnore_eq_or_append (db : Db) (c uri : String) :
    insertIgnore db c uri = db ∨
      ((db.find? (rowKey c uri)) = none ∧ insertIgnore db c uri = db ++ [⟨c, uri, 0, none⟩]) := by
  unfold insertIgnore
  by_cases h : (db.find? (rowKey c uri)).isSome
  · exact Or.inl (if_pos h)
  · exact Or.inr ⟨Option.not_isSome_iff_eq_none.mp h, if_neg h⟩

theorem insertIgnore_self_found (db : Db) (c uri : String) :
    ((insertIgnore db c uri).find? (rowKey c uri)).isSome = true := by
  unfold insertIgnore
  by_cases h : (db.find? (rowKey c uri)).isSome
  · simpa [h]
  · rw [if_neg h, List.find?_append, Option.not_isSome_iff_eq_none.mp h]
    simp [List.find?, rowKey]

theorem insertIgnore_found_mono {db : Db} {p : PlayRecord → Bool} {c uri : String}
    (h : (db.find? p).isSome = true) :
    ((insertIgnore db c uri).find? p).isSome = true := by
  rcases insertIgnore_eq_or_append db c uri with he | ⟨_, he⟩
  · rwa [he]
  · rw [he, List.find?_append]
    obtain ⟨r, hr⟩ := Option.isSome_iff_exists.mp h
    simp [hr]

theorem syncRun_no_fails_result (c : String) (fails : Nat → Bool)
    (hnf : ∀ j, fails j = false) :
    ∀ (tracks : List TrackInfo) (db : Db) (i : Nat),
      (syncRun c fails db i tracks).2 = 0 ∧
      ∃ ext, (syncRun c fails db i tracks).1 = db ++ ext ∧
        ∀ r ∈ ext, r.context_id = c ∧ r.play_count = 0 ∧ r.last_played = none ∧
          r.track_id ∈ tracks.map (·.uri) ∧ db.find? (rowKey c r.track_id) = none := by
  intro tracks
  induction tracks with
  | nil =>
    intro db i
    exact ⟨rfl, [], by simp [syncRun], by simp⟩
  | cons tr rest ih =>
    intro db i
    have hstep : syncRun c fails db i (tr :: rest) =
        syncRun c fails (insertIgnore db c tr.uri) (i + 1) rest := by
      simp [syncRun, hnf i]
    obtain ⟨he, ext, hext, hprop⟩ := ih (insertIgnore db c tr.uri) (i + 1)
    rcases insertIgnore_eq_or_append db c tr.uri with hii | ⟨habs, hii⟩
    · refine ⟨by rw [hstep]; exact he, ext, by rw [hstep, hext, hii], ?_⟩
      intro r hr
      obtain ⟨h1, h2, h3, h4, h5⟩ := hprop r hr
      rw [hii] at h5
      exact ⟨h1, h2, h3, by simp [h4], h5⟩
    · refine ⟨by rw [hstep]; exact he, ⟨c, tr.uri, 0, none⟩ :: ext, ?_, ?_⟩
      · rw [hstep, hext, hii, List.append_assoc]
        rfl
      · intro r hr
        rcases List.mem_cons.mp hr with rfl | hr
        · exact ⟨rfl, rfl, rfl, by simp, habs⟩
        · obtain ⟨h1, h2, h3, h4, h5⟩ := hprop r hr
          rw [hii, List.find?_append] at h5
          refine ⟨h1, h2, h3, by simp [h4], ?_⟩
          cases hfd : List.find? (rowKey c r.track_id) db with
          | none => rfl
          | some v => rw [hfd] at h5; simp at h5

theorem syncRun_preserves_found {c : String} {fails : Nat → Bool}
    (hnf : ∀ j, fails j = false) {p : PlayRecord → Bool} :
    ∀ (tracks : List TrackInfo) (db : Db) (i : Nat),
      (db.find? p).isSome = true →
      ((syncRun c fails db i tracks).1.find? p).isSome = true := by
  intro tracks
  induction tracks with
  | nil => intro db i h; exact h
  | cons tr rest ih =>
    intro db i h
    have hstep : syncRun c fails db i (tr :: rest) =
        syncRun c fails (insertIgnore db c tr.uri) (i + 1) rest := by
      simp [syncRun, hnf i]
    rw [hstep]
    exact ih _ _ (insertIgnore_found_mono h)

theorem syncRun_inserts_all {c : String} {fails : Nat → Bool}
    (hnf : ∀ j, fails j = false) :
    ∀ (tracks : List TrackInfo) (db : Db) (i : Nat) (tr : TrackInfo), tr ∈ tracks →
      ((syncRun c fails db i tracks).1.find? (rowKey c tr.uri)).isSome = true := by
  intro tracks
  induction tracks with
  | nil => intro db i tr h; exact absurd h (List.not_mem_nil tr)
  | cons hd rest ih =>
    intro db i tr h
    have hstep : syncRun c fails db i (hd :: rest) =
        syncRun c fails (insertIgnore db c hd.uri) (i + 1) rest := by
      simp [syncRun, hnf i]
    rw [hstep]
    rcases List.mem_cons.mp h with rfl | h
    · exact syncRun_preserves_found hnf rest _ _ (insertIgnore_self_found db c tr.uri)
    · exact ih _ _ tr h

theorem rowKey_eq_iff {c t : String} {r : PlayRecord} :
    rowKey c t r = true ↔ r.context_id = c ∧ r.track_id = t := by
  simp [rowKey]

theorem dbKeysUnique_insertIgnore {db : Db} (h : dbKeysUnique db) (c uri : String) :
    dbKeysUnique (insertIgnore db c uri) := by
  rcases insertIgnore_eq_or_append db c uri with he | ⟨habs, he⟩
  · rwa [he]
  · rw [he]
    unfold dbKeysUnique at *
    rw [List.map_append]
    refine (List.perm_append_singleton _ _).nodup_iff.mpr ?_
    rw [List.nodup_cons]
    refine ⟨?_, h⟩
    intro hmem
    obtain ⟨r, hr, hkey⟩ := List.mem_map.mp hmem
    have : (db.find? (rowKey c uri)).isSome = true := by
      rw [List.find?_isSome]
      refine ⟨r, hr, ?_⟩
      rw [rowKey_eq_iff]
      exact ⟨congrArg Prod.fst hkey, congrArg Prod.snd hkey⟩
    rw [habs] at this
    exact Bool.noConfusion this

theorem dbKeysUnique_syncRun {c : String} {fails : Nat → Bool}
    (hnf : ∀ j, fails j = false) :
    ∀ (tracks : List TrackInfo) (db : Db) (i : Nat), dbKeysUnique db →
      dbKeysUnique (syncRun c fails db i tracks).1 := by
  intro tracks
  induction tracks with
  | nil => intro db i h; exact h
  | cons hd rest ih =>
    intro db i h
    have hstep : syncRun c fails db i (hd :: rest) =
        syncRun c fails (insertIgnore db c hd.uri) (i + 1) rest := by
      simp [syncRun, hnf i]
    rw [hstep]
    exact ih _ _ (dbKeysUnique_insertIgnore h c hd.uri)

theorem countP_le_one_of_unique {db : Db} (h : dbKeysUnique db) (c t : String) :
    db.countP (rowKey c t) ≤ 1 := by
  induction db with
  | nil => simp
  | cons r rs ih =>
    unfold dbKeysUnique at h
    rw [List.map_cons, List.nodup_cons] at h
    obtain ⟨hnot, hnd⟩ := h
    by_cases hk : rowKey c t r
    · rw [List.countP_cons_of_pos _ _ hk]
      have : rs.countP (rowKey c t) = 0 := by
        rw [List.countP_eq_zero]
        intro q hq hkq
        obtain ⟨hc, ht⟩ := rowKey_eq_iff.mp hkq
        obtain ⟨hc', ht'⟩ := rowKey_eq_iff.mp hk
        refine hnot ?_
        rw [List.mem_map]
        exact ⟨q, hq, by rw [hc, ht, hc', ht']⟩
      omega
    · rw [List.countP_cons_of_neg _ _ (by simpa using hk)]
      exact ih hnd

theorem countP_eq_one_of_found {db : Db} (h : dbKeysUnique db) {c t : String}
    (hf : (db.find? (rowKey c t)).isSome = true) :
    db.countP (rowKey c t) = 1 := by
  have h1 : 0 < db.countP (rowKey c t) := by
    rw [List.countP_pos_iff]
    obtain ⟨r, hr, hk⟩ := List.find?_isSome.mp hf
    exact ⟨r, hr, hk⟩
  have h2 := countP_le_one_of_unique h c t
  omega

theorem syncRun_some_fail {c : String} {fails : Nat → Bool} :
    ∀ (tracks : List TrackInfo) (db : Db) (i : Nat),
      (∃ j, j < tracks.length ∧ fails (i + j) = true) →
      0 < (syncRun c fails db i tracks).2 := by
  intro tracks
  induction tracks with
  | nil =>
    intro db i ⟨j, hj, _⟩
    simp at hj
  | cons hd rest ih =>
    intro db i ⟨j, hj, hfail⟩
    by_cases h0 : fails i = true
    · have : syncRun c fails db i (hd :: rest) =
          (let (db', e) := syncRun c fails db (i + 1) rest; (db', e + 1)) := by
        simp [syncRun, h0]
      rw [this]
      simp
    · have hstep : syncRun c fails db i (hd :: rest) =
          syncRun c fails (insertIgnore db c hd.uri) (i + 1) rest := by
        simp [syncRun, Bool.eq_false_iff.mpr h0]
      rw [hstep]
      refine ih _ _ ⟨j - 1, ?_, ?_⟩
      · cases j with
        | zero => exact absurd hfail h0
        | succ j' => simp at hj ⊢; omega
      · cases j with
        | zero => exact absurd hfail h0
        | succ j' =>
          have : i + 1 + (j' + 1 - 1) = i + (j' + 1) := by omega
          rw [this]
          exact hfail

/-! ### Trace properties of the addition paths -/

theorem incsCovered_addOne (db : Db) (ctx : String) (allTracks : List TrackInfo)
    (pid? statePid : Option String) (rnd : Nat) (addErr : Bool) (now : Nat)
    (seen : List String) :
    incsCovered seen
      (addOneLeastPlayedTrack db ctx allTracks pid? statePid rnd addErr now).2.2 = true := by
  unfold addOneLeastPlayedTrack
  by_cases h1 : (getLeastPlayedTracks db ctx).isEmpty
  · simp [h1, incsCovered]
  · simp only [h1, Bool.false_eq_true, if_false]
    cases allTracks.find? (fun tr => tr.uri == (pickRandom rnd (getLeastPlayedTracks db ctx)).track_id) with
    | none => simp [incsCovered, evAddOkUri]
    | some full =>
      cases pid?.orElse (fun _ => statePid) with
      | none => simp [incsCovered, evAddOkUri]
      | some pid =>
        by_cases h2 : addErr
        · simp [h2, incsCovered, evAddOkUri]
        · simp [h2, incsCovered, evAddOkUri]

theorem errStops_addOne (db : Db) (ctx : String) (allTracks : List TrackInfo)
    (pid? statePid : Option String) (rnd : Nat) (addErr : Bool) (now : Nat) :
    errStops (addOneLeastPlayedTrack db ctx allTracks pid? statePid rnd addErr now).2.2 = true := by
  unfold addOneLeastPlayedTrack
  by_cases h1 : (getLeastPlayedTracks db ctx).isEmpty
  · simp [h1, errStops]
  · simp only [h1, Bool.false_eq_true, if_false]
    cases allTracks.find? (fun tr => tr.uri == (pickRandom rnd (getLeastPlayedTracks db ctx)).track_id) with
    | none => simp [errStops, evAddErr]
    | some full =>
      cases pid?.orElse (fun _ => statePid) with
      | none => simp [errStops, evAddErr]
      | some pid =>
        by_cases h2 : addErr
        · simp [h2, errStops, evAddErr]
        · simp [h2, errStops, evAddErr]

theorem incsCovered_topUpLoop (ctx : String) (allTracks : List TrackInfo)
    (rnd : Nat → Nat) (addErr : Nat → Bool) (now : Nat) :
    ∀ (fuel i : Nat) (db : Db) (seen : List String),
      incsCovered seen (topUpLoop ctx allTracks rnd addErr now fuel i db).2 = true := by
  intro fuel
  induction fuel with
  | zero => intro i db seen; rfl
  | succ fuel ih =>
    intro i db seen
    by_cases h1 : (getLeastPlayedTracks db ctx).isEmpty
    · simp [topUpLoop, h1, incsCovered, evAddOkUri]
    · simp only [topUpLoop, h1, Bool.false_eq_true, if_false]
      cases allTracks.find? (fun tr => tr.uri == (pickRandom (rnd i) (getLeastPlayedTracks db ctx)).track_id) with
      | none =>
        rcases hrec : topUpLoop ctx allTracks rnd addErr now fuel (i + 1) db with ⟨db', evs⟩
        have := ih (i + 1) db seen
        rw [hrec] at this
        simpa [incsCovered, evAddOkUri, hrec] using this
      | some full =>
        by_cases h2 : addErr i
        · simp [h2, incsCovered, evAddOkUri]
        · rcases hrec : topUpLoop ctx allTracks rnd addErr now fuel (i + 1)
            (incrementPlayCount db ctx (pickRandom (rnd i) (getLeastPlayedTracks db ctx)).track_id now).1 with ⟨db', evs⟩
          have := ih (i + 1)
            (incrementPlayCount db ctx (pickRandom (rnd i) (getLeastPlayedTracks db ctx)).track_id now).1
            ((pickRandom (rnd i) (getLeastPlayedTracks db ctx)).track_id :: seen)
          rw [hrec] at this
          by_cases h3 : 0 < fuel <;>
            simpa [h2, h3, incsCovered, evAddOkUri, hrec] using this

theorem errStops_topUpLoop (ctx : String) (allTracks : List TrackInfo)
    (rnd : Nat → Nat) (addErr : Nat → Bool) (now : Nat) :
    ∀ (fuel i : Nat) (db : Db),
      errStops (topUpLoop ctx allTracks rnd addErr now fuel i db).2 = true := by
  intro fuel
  induction fuel with
  | zero => intro i db; rfl
  | succ fuel ih =>
    intro i db
    by_cases h1 : (getLeastPlayedTracks db ctx).isEmpty
    · simp [topUpLoop, h1, errStops, evAddErr]
    · simp only [topUpLoop, h1, Bool.false_eq_true, if_false]
      cases allTracks.find? (fun tr => tr.uri == (pickRandom (rnd i) (getLeastPlayedTracks db ctx)).track_id) with
      | none =>
        rcases hrec : topUpLoop ctx allTracks rnd addErr now fuel (i + 1) db with ⟨db', evs⟩
        have := ih (i + 1) db
        rw [hrec] at this
        simpa [errStops, evAddErr, hrec] using this
      | some full =>
        by_cases h2 : addErr i
        · simp [h2, errStops, evAddErr]
        · rcases hrec : topUpLoop ctx allTracks rnd addErr now fuel (i + 1)
            (incrementPlayCount db ctx (pickRandom (rnd i) (getLeastPlayedTracks db ctx)).track_id now).1 with ⟨db', evs⟩
          have := ih (i + 1)
            (incrementPlayCount db ctx (pickRandom (rnd i) (getLeastPlayedTracks db ctx)).track_id now).1
          rw [hrec] at this
          by_cases h3 : 0 < fuel <;>
            simpa [h2, h3, errStops, evAddErr, hrec] using this

theorem incsCovered_startQueueLoop (ctx : String) (allTracks : List TrackInfo)
    (rnd : Nat → Nat) (addErr : Nat → Bool) (now : Nat) :
    ∀ (fuel i : Nat) (db : Db) (seen : List String),
      incsCovered seen (startQueueLoop ctx allTracks rnd addErr now fuel i db).2 = true := by
  intro fuel
  induction fuel with
  | zero => intro i db seen; rfl
  | succ fuel ih =>
    intro i db seen
    by_cases h1 : (getLeastPlayedTracks db ctx).isEmpty
    · simp [startQueueLoop, h1, incsCovered, evAddOkUri]
    · simp only [startQueueLoop, h1, Bool.false_eq_true, if_false]
      cases allTracks.find? (fun tr => tr.uri == (pickRandom (rnd i) (getLeastPlayedTracks db ctx)).track_id) with
      | none =>
        rcases hrec : startQueueLoop ctx allTracks rnd addErr now fuel (i + 1) db with ⟨db', evs⟩
        have := ih (i + 1) db seen
        rw [hrec] at this
        simpa [incsCovered, evAddOkUri, hrec] using this
      | some full =>
        by_cases h2 : addErr i
        · simp [h2, incsCovered, evAddOkUri]
        · rcases hrec : startQueueLoop ctx allTracks rnd addErr now fuel (i + 1)
            (incrementPlayCount db ctx (pickRandom (rnd i) (getLeastPlayedTracks db ctx)).track_id now).1 with ⟨db', evs⟩
          have := ih (i + 1)
            (incrementPlayCount db ctx (pickRandom (rnd i) (getLeastPlayedTracks db ctx)).track_id now).1
            ((pickRandom (rnd i) (getLeastPlayedTracks db ctx)).track_id :: seen)
          rw [hrec] at this
          simpa [h2, incsCovered, evAddOkUri, hrec] using this

theorem errStops_startQueueLoop (ctx : String) (allTracks : List TrackInfo)
    (rnd : Nat → Nat) (addErr : Nat → Bool) (now : Nat) :
    ∀ (fuel i : Nat) (db : Db),
      errStops (startQueueLoop ctx allTracks rnd addErr now fuel i db).2 = true := by
  intro fuel
  induction fuel with
  | zero => intro i db; rfl
  | succ fuel ih =>
    intro i db
    by_cases h1 : (getLeastPlayedTracks db ctx).isEmpty
    · simp [startQueueLoop, h1, errStops, evAddErr]
    · simp only [startQueueLoop, h1, Bool.false_eq_true, if_false]
      cases allTracks.find? (fun tr => tr.uri == (pickRandom (rnd i) (getLeastPlayedTracks db ctx)).track_id) with
      | none =>
        rcases hrec : startQueueLoop ctx allTracks rnd addErr now fuel (i + 1) db with ⟨db', evs⟩
        have := ih (i + 1) db
        rw [hrec] at this
        simpa [errStops, evAddErr, hrec] using this
      | some full =>
        by_cases h2 : addErr i
        · simp [h2, errStops, evAddErr]
        · rcases hrec : startQueueLoop ctx allTracks rnd addErr now fuel (i + 1)
            (incrementPlayCount db ctx (pickRandom (rnd i) (getLeastPlayedTracks db ctx)).track_id now).1 with ⟨db', evs⟩
          have := ih (i + 1)
            (incrementPlayCount db ctx (pickRandom (rnd i) (getLeastPlayedTracks db ctx)).track_id now).1
          rw [hrec] at this
          simpa [h2, errStops, evAddErr, hrec] using this

/-! ### Counting lemmas for the queue-monitoring top-up loop -/

theorem hasCtxRow_gcpc_ne_nil {ctx : String} {db : Db} (h : HasCtxRow ctx db) :
    getContextPlayCounts db ctx ≠ [] := by
  obtain ⟨r, hr, hc⟩ := h
  intro hnil
  have : r ∈ getContextPlayCounts db ctx := mem_getContextPlayCounts.mpr ⟨hr, hc⟩
  rw [hnil] at this
  exact List.not_mem_nil r this

theorem hasCtxRow_glpt_ne_nil {ctx : String} {db : Db} (h : HasCtxRow ctx db) :
    getLeastPlayedTracks db ctx ≠ [] :=
  getLeastPlayedTracks_ne_nil (hasCtxRow_gcpc_ne_nil h)

theorem hasCtxRow_glpt_not_empty {ctx : String} {db : Db} (h : HasCtxRow ctx db) :
    (getLeastPlayedTracks db ctx).isEmpty = false := by
  rw [List.isEmpty_eq_false_iff_exists_mem]
  obtain ⟨r, hr⟩ := List.exists_mem_of_ne_nil _ (hasCtxRow_glpt_ne_nil h)
  exact ⟨r, hr⟩

theorem tracksCover_upsert {allTracks : List TrackInfo} {ctx t : String} (now : Nat) {db : Db}
    (h : TracksCover allTracks ctx db)
    (ht : (allTracks.find? (fun tr => tr.uri == t)).isSome = true) :
    TracksCover allTracks ctx (upsertRows ctx t now db) := by
  intro r' hr' hc'
  rcases upsertRows_keys_subset hr' with ⟨_, htid⟩ | ⟨r, hr, hcc, htt⟩
  · rwa [htid]
  · rw [htt]
    exact h r hr (by rw [← hcc, hc'])

theorem hasCtxRow_upsert {ctx : String} (t : String) (now : Nat) {db : Db}
    (h : HasCtxRow ctx db) : HasCtxRow ctx (upsertRows ctx t now db) := by
  obtain ⟨r, hr, hc⟩ := h
  obtain ⟨r', hr', hcc, _⟩ := upsertRows_keys_superset ctx t now hr
  exact ⟨r', hr', by rw [hcc, hc]⟩

theorem selected_track_covered {allTracks : List TrackInfo} {ctx : String} {db : Db}
    (hc : TracksCover allTracks ctx db) (hr : HasCtxRow ctx db) (rv : Nat) :
    (allTracks.find? (fun tr =>
      tr.uri == (pickRandom rv (getLeastPlayedTracks db ctx)).track_id)).isSome = true := by
  have hmem := pickRandom_mem rv (hasCtxRow_glpt_ne_nil hr)
  obtain ⟨hdb, hctx⟩ := getLeastPlayedTracks_subset hmem
  exact hc _ hdb hctx

theorem selected_track_hasCtx {ctx : String} {db : Db}
    (hr : HasCtxRow ctx db) (rv : Nat) :
    (pickRandom rv (getLeastPlayedTracks db ctx)).context_id = ctx :=
  (getLeastPlayedTracks_subset (pickRandom_mem rv (hasCtxRow_glpt_ne_nil hr))).2

theorem topUpLoop_noErr_counts (ctx : String) (allTracks : List TrackInfo)
    (rnd : Nat → Nat) (addErr : Nat → Bool) (now : Nat)
    (hne : ∀ j, addErr j = false) :
    ∀ (fuel i : Nat) (db : Db), TracksCover allTracks ctx db → HasCtxRow ctx db →
      (topUpLoop ctx allTracks rnd addErr now fuel i db).2.countP evAddOk = fuel ∧
      (topUpLoop ctx allTracks rnd addErr now fuel i db).2.countP evIsInc = fuel ∧
      (topUpLoop ctx allTracks rnd addErr now fuel i db).2.count (Ev.delayMs 1000) = fuel - 1 := by
  intro fuel
  induction fuel with
  | zero => intro i db _ _; exact ⟨rfl, rfl, rfl⟩
  | succ fuel ih =>
    intro i db hc hr
    have h1 := hasCtxRow_glpt_not_empty hr
    have hfound := selected_track_covered hc hr (rnd i)
    obtain ⟨full, hfull⟩ := Option.isSome_iff_exists.mp hfound
    have hc' := tracksCover_upsert now hc hfound
    have hr' := hasCtxRow_upsert (pickRandom (rnd i) (getLeastPlayedTracks db ctx)).track_id now hr
    obtain ⟨ha, hb, hd⟩ := ih (i + 1)
      (incrementPlayCount db ctx (pickRandom (rnd i) (getLeastPlayedTracks db ctx)).track_id now).1
      hc' hr'
    rcases hrec : topUpLoop ctx allTracks rnd addErr now fuel (i + 1)
      (incrementPlayCount db ctx (pickRandom (rnd i) (getLeastPlayedTracks db ctx)).track_id now).1
      with ⟨db', evs⟩
    rw [hrec] at ha hb hd
    by_cases h3 : 0 < fuel <;>
      · refine ⟨?_, ?_, ?_⟩ <;>
          · simp [topUpLoop, h1, hfull, hne i, h3, hrec, evAddOk, evAddOkUri, evIsInc,
              List.countP_cons, List.count_cons, ha, hb, hd]
            try omega

theorem topUpLoop_step_fail (ctx : String) (allTracks : List TrackInfo)
    (rnd : Nat → Nat) (addErr : Nat → Bool) (now : Nat) (fuel i : Nat) (db : Db)
    (hc : TracksCover allTracks ctx db) (hr : HasCtxRow ctx db)
    (hf : addErr i = true) :
    (topUpLoop ctx allTracks rnd addErr now (fuel + 1) i db).2 =
      [Ev.selectTrack (pickRandom (rnd i) (getLeastPlayedTracks db ctx)).track_id,
       Ev.addQueueErr (pickRandom (rnd i) (getLeastPlayedTracks db ctx)).track_id] := by
  have h1 := hasCtxRow_glpt_not_empty hr
  obtain ⟨full, hfull⟩ := Option.isSome_iff_exists.mp (selected_track_covered hc hr (rnd i))
  simp [topUpLoop, h1, hfull, hf]

theorem topUpLoop_step_ok (ctx : String) (allTracks : List TrackInfo)
    (rnd : Nat → Nat) (addErr : Nat → Bool) (now : Nat) (fuel i : Nat) (db : Db)
    (hc : TracksCover allTracks ctx db) (hr : HasCtxRow ctx db)
    (h0 : addErr i = false) :
    topUpLoop ctx allTracks rnd addErr now (fuel + 1) i db =
      ((topUpLoop ctx allTracks rnd addErr now fuel (i + 1)
          (incrementPlayCount db ctx
            (pickRandom (rnd i) (getLeastPlayedTracks db ctx)).track_id now).1).1,
        Ev.selectTrack (pickRandom (rnd i) (getLeastPlayedTracks db ctx)).track_id ::
          Ev.addQueueOk (pickRandom (rnd i) (getLeastPlayedTracks db ctx)).track_id ::
            Ev.incCount (pickRandom (rnd i) (getLeastPlayedTracks db ctx)).track_id ::
              ((if 0 < fuel then [Ev.delayMs 1000] else []) ++
                (topUpLoop ctx allTracks rnd addErr now fuel (i + 1)
                  (incrementPlayCount db ctx
                    (pickRandom (rnd i) (getLeastPlayedTracks db ctx)).track_id now).1).2)) := by
  have hne := hasCtxRow_glpt_not_empty hr
  obtain ⟨full, hfull⟩ := Option.isSome_iff_exists.mp (selected_track_covered hc hr (rnd i))
  rcases hrec : topUpLoop ctx allTracks rnd addErr now fuel (i + 1)
    (incrementPlayCount db ctx (pickRandom (rnd i) (getLeastPlayedTracks db ctx)).track_id now).1
    with ⟨db', evs⟩
  simp [topUpLoop, hne, hfull, h0, hrec]

theorem topUpLoop_fail_on_second (ctx : String) (allTracks : List TrackInfo)
    (rnd : Nat → Nat) (addErr : Nat → Bool) (now : Nat) (fuel i : Nat) (db : Db)
    (hc : TracksCover allTracks ctx db) (hr : HasCtxRow ctx db)
    (h0 : addErr i = false) (h1 : addErr (i + 1) = true) :
    (topUpLoop ctx allTracks rnd addErr now (fuel + 2) i db).2.countP evAddOk = 1 ∧
    (topUpLoop ctx allTracks rnd addErr now (fuel + 2) i db).2.countP evIsInc = 1 ∧
    (topUpLoop ctx allTracks rnd addErr now (fuel + 2) i db).2.countP evAddErr = 1 := by
  have hc' := tracksCover_upsert now hc (selected_track_covered hc hr (rnd i))
  have hr' := hasCtxRow_upsert (pickRandom (rnd i) (getLeastPlayedTracks db ctx)).track_id now hr
  have hstep := topUpLoop_step_fail ctx allTracks rnd addErr now fuel (i + 1)
    (incrementPlayCount db ctx (pickRandom (rnd i) (getLeastPlayedTracks db ctx)).track_id now).1
    hc' hr' h1
  rw [topUpLoop_step_ok ctx allTracks rnd addErr now (fuel + 1) i db hc hr h0]
  refine ⟨?_, ?_, ?_⟩ <;>
    simp [hstep, evAddOk, evAddOkUri, evIsInc, evAddErr, List.countP_cons]

/-! ### Substring facts for the error-classification branch -/

theorem isPrefixOf_append_right (p l t : List Char) (h : p.isPrefixOf l = true) :
    p.isPrefixOf (l ++ t) = true := by
  induction p generalizing l with
  | nil => simp [List.isPrefixOf]
  | cons a p' ih =>
    cases l with
    | nil => simp [List.isPrefixOf] at h
    | cons b l' =>
      simp only [List.cons_append, List.isPrefixOf, Bool.and_eq_true] at h ⊢
      exact ⟨h.1, ih l' h.2⟩

theorem listHasSub_nil_pat (l : List Char) : listHasSub [] l = true := by
  cases l with
  | nil => rfl
  | cons c rest => simp [listHasSub, List.isPrefixOf]

theorem listHasSub_append_right (pat l1 l2 : List Char) (h : listHasSub pat l1 = true) :
    listHasSub pat (l1 ++ l2) = true := by
  induction l1 with
  | nil =>
    simp only [listHasSub, List.isEmpty_iff] at h
    subst h
    exact listHasSub_nil_pat l2
  | cons c l1' ih =>
    simp only [listHasSub, Bool.or_eq_true, List.cons_append] at h ⊢
    rcases h with h | h
    · exact Or.inl (isPrefixOf_append_right _ _ _ h)
    · exact Or.inr (ih h)

theorem strIncludes_append_right (s t pat : String) (h : strIncludes s pat = true) :
    strIncludes (s ++ t) pat = true := by
  unfold strIncludes at h ⊢
  rw [String.data_append]
  exact listHasSub_append_right _ _ _ h

theorem playlist_uri_includes_playlist (pid : String) :
    strIncludes ("spotify:playlist:" ++ pid) "playlist" = true :=
  strIncludes_append_right "spotify:playlist:" pid "playlist" (by decide)

/-! ### Claim theorems -/

/-- C1: for every context, the least-played query returns exactly the
set of records for the context whose `play_count` equals the minimum
play count among all records `listByContext` (`getContextPlayCounts`)
returns — membership in the result coincides with being a
`getContextPlayCounts` row whose count is ≤ every other row's — and
whenever `getContextPlayCounts` is non-empty the result is
non-empty. -/
theorem c1_leastPlayed_min_set (db : Db) (c : String) :
    (∀ r, r ∈ getLeastPlayedTracks db c ↔
        r ∈ getContextPlayCounts db c ∧
          ∀ q ∈ getContextPlayCounts db c, r.play_count ≤ q.play_count) ∧
    (getContextPlayCounts db c ≠ [] → getLeastPlayedTracks db c ≠ []) :=
  ⟨fun _ => mem_getLeastPlayedTracks, getLeastPlayedTracks_ne_nil⟩

/-- Witness for C1 at a concrete store: three rows for context `"c"`,
two sharing the minimum. -/
theorem c1_leastPlayed_min_set_witness :
    getContextPlayCounts [⟨"c", "a", 2, none⟩, ⟨"c", "b", 1, some 5⟩, ⟨"c", "t", 1, none⟩] "c" ≠ [] ∧
    getLeastPlayedTracks [⟨"c", "a", 2, none⟩, ⟨"c", "b", 1, some 5⟩, ⟨"c", "t", 1, none⟩] "c" ≠ [] :=
  ⟨by decide,
    (c1_leastPlayed_min_set [⟨"c", "a", 2, none⟩, ⟨"c", "b", 1, some 5⟩, ⟨"c", "t", 1, none⟩] "c").2
      (by decide)⟩

/-- C8: `getContextPlayCounts` returns the records of the context
(a permutation of the context's rows) totally ordered by
`play_count` ascending, then `last_played` ascending, with `NULL`
(`none`) ordering before any timestamp; `rowOrd`/`lastPlayedLE` spell
out that order. -/
theorem c8_listByContext_sorted (db : Db) (c : String) :
    List.Sorted rowOrd (getContextPlayCounts db c) ∧
    (getContextPlayCounts db c).Perm (db.filter (fun r => r.context_id == c)) ∧
    (∀ a : Option Nat, lastPlayedLE none a) ∧
    (∀ k : Nat, lastPlayedLE (some k) none ↔ False) ∧
    (∀ k m : Nat, lastPlayedLE (some k) (some m) ↔ k ≤ m) ∧
    (∀ r1 r2, rowOrd r1 r2 ↔ (r1.play_count < r2.play_count ∨
      (r1.play_count = r2.play_count ∧ lastPlayedLE r1.last_played r2.last_played))) :=
  ⟨List.sorted_insertionSort rowOrd _, getContextPlayCounts_perm db c,
    fun _ => trivial, fun _ => Iff.rfl, fun _ _ => Iff.rfl, fun _ _ => Iff.rfl⟩

/-- Witness for C8 at a concrete store: the `NULL` row sorts before
the timestamped row at equal play counts. -/
theorem c8_listByContext_sorted_witness :
    List.Sorted rowOrd
      (getContextPlayCounts [⟨"c", "b", 1, some 5⟩, ⟨"c", "t", 1, none⟩, ⟨"c", "a", 0, some 9⟩] "c") :=
  (c8_listByContext_sorted [⟨"c", "b", 1, some 5⟩, ⟨"c", "t", 1, none⟩, ⟨"c", "a", 0, some 9⟩] "c").1

/-- Counterexample for C2: on a store whose row already has count 1,
`incrementPlayCount` stores count 2 but resolves `this.changes = 1`,
not the new count; the claim's "returns the new count" fails. -/
theorem c2_increment_counterexample :
    (incrementPlayCount [⟨"c", "t", 1, none⟩] "c" "t" 7).2 = 1 ∧
    getPlayCount (incrementPlayCount [⟨"c", "t", 1, none⟩] "c" "t" 7).1 "c" "t" = 2 ∧
    (incrementPlayCount [⟨"c", "t", 1, none⟩] "c" "t" 7).2 ≠
      getPlayCount (incrementPlayCount [⟨"c", "t", 1, none⟩] "c" "t" 7).1 "c" "t" := by
  refine ⟨rfl, by decide, by decide⟩

/-- C2 (amended): `incrementPlayCount` creates the record at count 1
with a fresh `last_played` when no record exists, otherwise adds 1 and
stamps `last_played`; it resolves the number of affected rows (always
1), not the new count; and `N` sequential calls on the same key
increase the stored count by exactly `N` (no lost updates). -/
theorem c2_increment_upsert (db : Db) (c t : String) (now : Nat) :
    (incrementPlayCount db c t now).2 = 1 ∧
    (db.find? (rowKey c t) = none →
      (incrementPlayCount db c t now).1.find? (rowKey c t) = some ⟨c, t, 1, some now⟩) ∧
    (∀ r, db.find? (rowKey c t) = some r →
      (incrementPlayCount db c t now).1.find? (rowKey c t) =
        some { r with play_count := r.play_count + 1, last_played := some now }) ∧
    (∀ (times : Nat → Nat) (n : Nat),
      getPlayCount (iterIncrement c t times db n) c t = getPlayCount db c t + n) := by
  refine ⟨rfl, ?_, ?_, fun times n => getPlayCount_iterIncrement c t times db n⟩
  · intro h
    show (upsertRows c t now db).find? (rowKey c t) = _
    rw [upsertRows_find?, h]
  · intro r h
    show (upsertRows c t now db).find? (rowKey c t) = _
    rw [upsertRows_find?, h]

/-- Witness for C2 at concrete inputs: creation at count 1, and three
sequential increments raising the stored count from 0 to 3. -/
theorem c2_increment_upsert_witness :
    (incrementPlayCount [] "c" "t" 5).1.find? (rowKey "c" "t") = some ⟨"c", "t", 1, some 5⟩ ∧
    getPlayCount (iterIncrement "c" "t" (fun k => k) [] 3) "c" "t" = 3 :=
  ⟨(c2_increment_upsert [] "c" "t" 5).2.1 rfl,
    (c2_increment_upsert [] "c" "t" 0).2.2.2 (fun k => k) 3⟩

/-- Counterexample for C3: syncing a single already-present track
resolves `tracks.length = 1` even though zero new rows were inserted
(the store is unchanged); the claim's "returns the number of new rows
inserted" fails. -/
theorem c3_sync_counterexample :
    (syncContextTracks [⟨"c", "t", 0, none⟩] "c" [⟨"t", "t", "n", "a", 0⟩] (fun _ => false)).2 =
      Except.ok 1 ∧
    (syncContextTracks [⟨"c", "t", 0, none⟩] "c" [⟨"t", "t", "n", "a", 0⟩] (fun _ => false)).1 =
      [⟨"c", "t", 0, none⟩] ∧
    (1 : Nat) ≠ 0 :=
  ⟨rfl, rfl, by decide⟩

/-- C3 (amended): with no insert failing, `syncContextTracks` resolves
`tracks.length` (the number of tracks passed, not the number of new
rows); it appends — leaving every pre-existing row untouched in place
— only rows at count 0 with `NULL` `last_played` for tracks of the
list that were absent; and afterwards, under the primary-key
invariant, `getContextPlayCounts` holds exactly one record per track
of the list. -/
theorem c3_sync_preserves_and_inserts (db : Db) (c : String) (tracks : List TrackInfo)
    (hu : dbKeysUnique db) :
    (syncContextTracks db c tracks (fun _ => false)).2 = Except.ok tracks.length ∧
    (∃ ext, (syncContextTracks db c tracks (fun _ => false)).1 = db ++ ext ∧
      ∀ r ∈ ext, r.context_id = c ∧ r.play_count = 0 ∧ r.last_played = none ∧
        r.track_id ∈ tracks.map (·.uri) ∧ db.find? (rowKey c r.track_id) = none) ∧
    (∀ tr ∈ tracks,
      (getContextPlayCounts (syncContextTracks db c tracks (fun _ => false)).1 c).countP
        (fun r => r.track_id == tr.uri) = 1) := by
  by_cases hnil : tracks.isEmpty
  · rw [List.isEmpty_iff] at hnil
    subst hnil
    exact ⟨rfl, ⟨[], by simp [syncContextTracks], by simp⟩, by simp⟩
  · obtain ⟨herr, ext, hext, hprop⟩ :=
      syncRun_no_fails_result c (fun _ => false) (fun _ => rfl) tracks db 0
    have hres : syncContextTracks db c tracks (fun _ => false) =
        ((syncRun c (fun _ => false) db 0 tracks).1, Except.ok tracks.length) := by
      unfold syncContextTracks
      rw [if_neg (by simp [hnil])]
      simp [herr]
    refine ⟨by rw [hres], ⟨ext, by rw [hres]; exact hext, hprop⟩, ?_⟩
    intro tr htr
    have hfound : ((syncRun c (fun _ => false) db 0 tracks).1.find? (rowKey c tr.uri)).isSome = true :=
      syncRun_inserts_all (fun _ => rfl) tracks db 0 tr htr
    have hu' : dbKeysUnique (syncRun c (fun _ => false) db 0 tracks).1 :=
      dbKeysUnique_syncRun (fun _ => rfl) tracks db 0 hu
    have hcnt := countP_eq_one_of_found hu' hfound
    rw [hres]
    have hperm := getContextPlayCounts_perm (syncRun c (fun _ => false) db 0 tracks).1 c
    rw [hperm.countP_eq, List.countP_filter]
    calc (syncRun c (fun _ => false) db 0 tracks).1.countP
          (fun r => r.track_id == tr.uri && r.context_id == c)
        = (syncRun c (fun _ => false) db 0 tracks).1.countP (rowKey c tr.uri) := by
          congr 1
          funext r
          simp [rowKey, Bool.and_comm]
      _ = 1 := hcnt

/-- Witness for C3 at a concrete store with one pre-existing row for
another track of the same context. -/
theorem c3_sync_preserves_and_inserts_witness :
    dbKeysUnique [⟨"c", "old", 3, some 1⟩] ∧
    (syncContextTracks [⟨"c", "old", 3, some 1⟩] "c" [⟨"t", "t", "n", "a", 0⟩]
      (fun _ => false)).2 = Except.ok 1 ∧
    (getContextPlayCounts
      (syncContextTracks [⟨"c", "old", 3, some 1⟩] "c" [⟨"t", "t", "n", "a", 0⟩]
        (fun _ => false)).1 "c").countP (fun r => r.track_id == "t") = 1 :=
  ⟨by decide,
    (c3_sync_preserves_and_inserts [⟨"c", "old", 3, some 1⟩] "c" [⟨"t", "t", "n", "a", 0⟩]
      (by decide)).1,
    (c3_sync_preserves_and_inserts [⟨"c", "old", 3, some 1⟩] "c" [⟨"t", "t", "n", "a", 0⟩]
      (by decide)).2.2 ⟨"t", "t", "n", "a", 0⟩ (List.mem_singleton.mpr rfl)⟩

/-- C7: when any insert of a `syncContextTracks` call fails, the call
rejects (never resolves) and the transaction is rolled back: the
resulting rows are exactly the pre-call rows. -/
theorem c7_sync_all_or_nothing (db : Db) (c : String) (tracks : List TrackInfo)
    (fails : Nat → Bool) (h : ∃ j, j < tracks.length ∧ fails j = true) :
    (syncContextTracks db c tracks fails).1 = db ∧
    ∀ n, (syncContextTracks db c tracks fails).2 ≠ Except.ok n := by
  have hnil : tracks.isEmpty = false := by
    obtain ⟨j, hj, _⟩ := h
    cases tracks with
    | nil => simp at hj
    | cons a l => rfl
  have herr : 0 < (syncRun c fails db 0 tracks).2 := by
    refine syncRun_some_fail tracks db 0 ?_
    obtain ⟨j, hj, hf⟩ := h
    exact ⟨j, hj, by simpa using hf⟩
  have hres : syncContextTracks db c tracks fails =
      (db, Except.error ("Failed to sync " ++ toString (syncRun c fails db 0 tracks).2 ++ " tracks")) := by
    unfold syncContextTracks
    rw [if_neg (by simp [hnil])]
    simp [herr, Nat.pos_iff_ne_zero.mp herr]
  rw [hres]
  exact ⟨rfl, fun n hn => Except.noConfusion hn⟩

/-- Witness for C7: a failing insert on a one-track sync leaves the
store untouched and the call rejected. -/
theorem c7_sync_all_or_nothing_witness :
    (syncContextTracks [⟨"c", "old", 3, some 1⟩] "c" [⟨"t", "t", "n", "a", 0⟩]
      (fun _ => true)).1 = [⟨"c", "old", 3, some 1⟩] ∧
    ∀ n, (syncContextTracks [⟨"c", "old", 3, some 1⟩] "c" [⟨"t", "t", "n", "a", 0⟩]
      (fun _ => true)).2 ≠ Except.ok n :=
  c7_sync_all_or_nothing [⟨"c", "old", 3, some 1⟩] "c" [⟨"t", "t", "n", "a", 0⟩]
    (fun _ => true) ⟨0, by decide, rfl⟩

/-- C5: when the session already manages the resolved context
(active and same context uri), the start-shuffle handler reports
"already active" and performs nothing: no playlist creation/removal,
no store write, no remote call — the session state, the store and the
action trace are returned untouched. -/
theorem c5_start_already_active_noop (env : StartEnv) (st : ShuffleState) (db : Db)
    (ctx : String) (hauth : env.auth = true) (hpb : env.playbackCtxUri = some ctx)
    (hmg : isManagingContext st ctx = true) :
    startShuffleHandler env st db = (.alreadyActive ctx, st, db, []) := by
  unfold startShuffleHandler
  rw [hauth, hpb]
  simp [hmg]

/-- Witness for C5 at a concrete active session and store. -/
theorem c5_start_already_active_noop_witness :
    startShuffleHandler
      ⟨true, some "spotify:playlist:x", Except.error "e", fun _ => false, false, "p",
        false, true, fun _ => false, fun _ => 0, 5, 0⟩
      ⟨true, some "spotify:playlist:x", [], none, none, some "pl", some "ini"⟩
      [⟨"spotify:playlist:x", "t", 4, some 9⟩] =
    (.alreadyActive "spotify:playlist:x",
      ⟨true, some "spotify:playlist:x", [], none, none, some "pl", some "ini"⟩,
      [⟨"spotify:playlist:x", "t", 4, some 9⟩], []) :=
  c5_start_already_active_noop
    ⟨true, some "spotify:playlist:x", Except.error "e", fun _ => false, false, "p",
      false, true, fun _ => false, fun _ => 0, 5, 0⟩
    ⟨true, some "spotify:playlist:x", [], none, none, some "pl", some "ini"⟩
    [⟨"spotify:playlist:x", "t", 4, some 9⟩]
    "spotify:playlist:x" rfl rfl (by decide)

/-- Counterexample for C9: a genuine 404 enumeration failure on an
album-type context (`split(':')[1] = "album"`) whose id happens to
contain the substring `playlist` is classified as the distinguished
`Cannot shuffle this playlist` response, whereas the claim requires
every error that is not a 404 on a playlist-type context to propagate
as a generic failure. -/
theorem c9_classification_counterexample :
    contextTypeOf "spotify:album:playlistXYZ" ≠ "playlist" ∧
    strIncludes "HTTP 404: Not Found" "404" = true ∧
    (startShuffleHandler
      ⟨true, some "spotify:album:playlistXYZ", Except.error "HTTP 404: Not Found",
        fun _ => false, false, "pid", false, true, fun _ => false, fun _ => 0, 5, 0⟩
      initialShuffleState []).1 =
      StartResponse.cannotShufflePlaylist "spotify:album:playlistXYZ" := by
  exact ⟨by decide, by decide, by decide⟩

/-- C9 (amended): the enumeration-failure branch of the start handler
classifies by substring matching — the distinguished
`Cannot shuffle this playlist` response is produced exactly when the
thrown message contains `"404"` and the context uri contains
`"playlist"`, and every other enumeration error surfaces as the
generic 500 failure. In particular a 404 enumeration failure on a
playlist-type context (`spotify:playlist:…`) always gets the
distinguished, actionable response. -/
theorem c9_enumeration_error_classification (env : StartEnv) (st : ShuffleState) (db : Db)
    (ctx msg : String) (hauth : env.auth = true) (hpb : env.playbackCtxUri = some ctx)
    (hmg : isManagingContext st ctx = false) (hf : env.fetchResult = .error msg) :
    ((startShuffleHandler env st db).1 = .cannotShufflePlaylist ctx ↔
      (strIncludes msg "404" = true ∧ strIncludes ctx "playlist" = true)) ∧
    ((strIncludes msg "404" = false ∨ strIncludes ctx "playlist" = false) →
      (startShuffleHandler env st db).1 = .failedGeneric msg) ∧
    (∀ pid, ctx = "spotify:playlist:" ++ pid → strIncludes msg "404" = true →
      (startShuffleHandler env st db).1 = .cannotShufflePlaylist ctx) := by
  have hred : (startShuffleHandler env st db).1 =
      if strIncludes msg "404" = true ∧ strIncludes ctx "playlist" = true then
        .cannotShufflePlaylist ctx
      else .failedGeneric msg := by
    unfold startShuffleHandler
    rw [hauth, hpb]
    simp only [hmg, hf, Bool.not_true, Bool.false_eq_true, if_false, Bool.and_eq_true,
      decide_eq_true_eq]
    split <;> rfl
  refine ⟨?_, ?_, ?_⟩
  · by_cases h4 : strIncludes msg "404" = true <;> by_cases hp : strIncludes ctx "playlist" = true <;>
      simp [hred, h4, hp]
  · intro h
    rcases h with h | h <;> simp [hred, h]
  · intro pid hctx h4
    rw [hred, hctx]
    simp [h4, playlist_uri_includes_playlist pid]

/-- Witness for C9: the classification applied to a 404 on a
playlist-type context uri. -/
theorem c9_enumeration_error_classification_witness :
    (startShuffleHandler
      ⟨true, some ("spotify:playlist:" ++ "abc"), Except.error "HTTP 404: Not Found",
        fun _ => false, false, "pid", false, true, fun _ => false, fun _ => 0, 5, 0⟩
      initialShuffleState []).1 =
      StartResponse.cannotShufflePlaylist ("spotify:playlist:" ++ "abc") :=
  (c9_enumeration_error_classification
    ⟨true, some ("spotify:playlist:" ++ "abc"), Except.error "HTTP 404: Not Found",
      fun _ => false, false, "pid", false, true, fun _ => false, fun _ => 0, 5, 0⟩
    initialShuffleState [] ("spotify:playlist:" ++ "abc") "HTTP 404: Not Found"
    rfl rfl (by decide) rfl).2.2 "abc" rfl (by decide)

/-- C10: when the randomly selected least-played row has no matching
entry (by uri) in the captured track list, `addOneLeastPlayedTrack`
returns the failure result having performed no remote mutation and no
store write: the store is returned unchanged and the trace contains no
playlist/queue addition (successful or failed) and no increment. -/
theorem c10_missing_info_no_mutation (db : Db) (ctx : String) (allTracks : List TrackInfo)
    (pid? statePid : Option String) (rnd : Nat) (addErr : Bool) (now : Nat)
    (hne : (getLeastPlayedTracks db ctx).isEmpty = false)
    (hmiss : allTracks.find? (fun tr =>
      tr.uri == (pickRandom rnd (getLeastPlayedTracks db ctx)).track_id) = none) :
    (addOneLeastPlayedTrack db ctx allTracks pid? statePid rnd addErr now).1 = .noTrackInfo ∧
    (addOneLeastPlayedTrack db ctx allTracks pid? statePid rnd addErr now).2.1 = db ∧
    (addOneLeastPlayedTrack db ctx allTracks pid? statePid rnd addErr now).2.2.countP evAddOk = 0 ∧
    (addOneLeastPlayedTrack db ctx allTracks pid? statePid rnd addErr now).2.2.countP evAddErr = 0 ∧
    (addOneLeastPlayedTrack db ctx allTracks pid? statePid rnd addErr now).2.2.countP evIsInc = 0 := by
  have hres : addOneLeastPlayedTrack db ctx allTracks pid? statePid rnd addErr now =
      (.noTrackInfo, db,
        [Ev.selectTrack (pickRandom rnd (getLeastPlayedTracks db ctx)).track_id]) := by
    unfold addOneLeastPlayedTrack
    simp [hne, hmiss]
  rw [hres]
  refine ⟨rfl, rfl, ?_, ?_, ?_⟩ <;> simp [evAddOk, evAddOkUri, evAddErr, evIsInc]

/-- Witness for C10: a store with one row whose track is missing from
the (empty) captured track list. -/
theorem c10_missing_info_no_mutation_witness :
    (addOneLeastPlayedTrack [⟨"c", "t", 0, none⟩] "c" [] (some "p") none 0 false 9).1 =
      AddOneResult.noTrackInfo ∧
    (addOneLeastPlayedTrack [⟨"c", "t", 0, none⟩] "c" [] (some "p") none 0 false 9).2.1 =
      [⟨"c", "t", 0, none⟩] := by
  have h := c10_missing_info_no_mutation [⟨"c", "t", 0, none⟩] "c" [] (some "p") none 0 false 9
    (by decide) (by decide)
  exact ⟨h.1, h.2.1⟩

/-- C6: in every embedded code path that adds a selected track to the
vehicle playlist (`addOneLeastPlayedTrack`) or to the playback queue
(the start handler's queue-population loop and the queue-monitoring
top-up loop), a play-count increment for a track occurs only after a
successful remote addition of that same track (`incsCovered`), and a
failed remote addition ends the path's trace immediately, so no
increment for the failed track ever follows (`errStops`). -/
theorem c6_increment_only_after_add (db : Db) (ctx : String) (allTracks : List TrackInfo)
    (pid? statePid : Option String) (rnd1 : Nat) (addErr1 : Bool) (now : Nat)
    (rnd : Nat → Nat) (addErr : Nat → Bool) (fuel i : Nat) :
    incsCovered [] (addOneLeastPlayedTrack db ctx allTracks pid? statePid rnd1 addErr1 now).2.2 = true ∧
    errStops (addOneLeastPlayedTrack db ctx allTracks pid? statePid rnd1 addErr1 now).2.2 = true ∧
    incsCovered [] (topUpLoop ctx allTracks rnd addErr now fuel i db).2 = true ∧
    errStops (topUpLoop ctx allTracks rnd addErr now fuel i db).2 = true ∧
    incsCovered [] (startQueueLoop ctx allTracks rnd addErr now fuel i db).2 = true ∧
    errStops (startQueueLoop ctx allTracks rnd addErr now fuel i db).2 = true :=
  ⟨incsCovered_addOne db ctx allTracks pid? statePid rnd1 addErr1 now [],
    errStops_addOne db ctx allTracks pid? statePid rnd1 addErr1 now,
    incsCovered_topUpLoop ctx allTracks rnd addErr now fuel i db [],
    errStops_topUpLoop ctx allTracks rnd addErr now fuel i db,
    incsCovered_startQueueLoop ctx allTracks rnd addErr now fuel i db [],
    errStops_startQueueLoop ctx allTracks rnd addErr now fuel i db⟩

/-- Counterexample for C4: a concrete reconciliation tick with target
depth 5 and 2 recently-added tracks recognized in the filtered queue
performs 3 select-add-increment attempts but only 2 inter-call delays
— the delay follows each addition except the last, so the first
attempt is preceded by no delay at all (it opens the trace), refuting
"each attempt preceded by the configured inter-call delay" (which
would require at least as many delays as attempts). -/
theorem c4_tick_counterexample :
    (queueMonitorTick true true (some "spotify:playlist:pid")
      ⟨true, some "c", [], none, none, some "pid", none⟩ "c"
      [⟨"a", "a", "A", "X", 1⟩, ⟨"b", "b", "B", "X", 1⟩, ⟨"t3", "t3", "T", "X", 1⟩] 5
      (some ["a", "b"]) (fun _ => 0) (fun _ => false) 20
      [⟨"c", "a", 1, some 10⟩, ⟨"c", "b", 1, some 9⟩, ⟨"c", "t3", 0, none⟩]).2.countP evAddOk = 3 ∧
    (queueMonitorTick true true (some "spotify:playlist:pid")
      ⟨true, some "c", [], none, none, some "pid", none⟩ "c"
      [⟨"a", "a", "A", "X", 1⟩, ⟨"b", "b", "B", "X", 1⟩, ⟨"t3", "t3", "T", "X", 1⟩] 5
      (some ["a", "b"]) (fun _ => 0) (fun _ => false) 20
      [⟨"c", "a", 1, some 10⟩, ⟨"c", "b", 1, some 9⟩, ⟨"c", "t3", 0, none⟩]).2.count (Ev.delayMs 1000) = 2 ∧
    (queueMonitorTick true true (some "spotify:playlist:pid")
      ⟨true, some "c", [], none, none, some "pid", none⟩ "c"
      [⟨"a", "a", "A", "X", 1⟩, ⟨"b", "b", "B", "X", 1⟩, ⟨"t3", "t3", "T", "X", 1⟩] 5
      (some ["a", "b"]) (fun _ => 0) (fun _ => false) 20
      [⟨"c", "a", 1, some 10⟩, ⟨"c", "b", 1, some 9⟩, ⟨"c", "t3", 0, none⟩]).2.head? =
        some (Ev.selectTrack "t3") ∧
    ¬((queueMonitorTick true true (some "spotify:playlist:pid")
      ⟨true, some "c", [], none, none, some "pid", none⟩ "c"
      [⟨"a", "a", "A", "X", 1⟩, ⟨"b", "b", "B", "X", 1⟩, ⟨"t3", "t3", "T", "X", 1⟩] 5
      (some ["a", "b"]) (fun _ => 0) (fun _ => false) 20
      [⟨"c", "a", 1, some 10⟩, ⟨"c", "b", 1, some 9⟩, ⟨"c", "t3", 0, none⟩]).2.countP evAddOk ≤
      (queueMonitorTick true true (some "spotify:playlist:pid")
      ⟨true, some "c", [], none, none, some "pid", none⟩ "c"
      [⟨"a", "a", "A", "X", 1⟩, ⟨"b", "b", "B", "X", 1⟩, ⟨"t3", "t3", "T", "X", 1⟩] 5
      (some ["a", "b"]) (fun _ => 0) (fun _ => false) 20
      [⟨"c", "a", 1, some 10⟩, ⟨"c", "b", 1, some 9⟩, ⟨"c", "t3", 0, none⟩]).2.count (Ev.delayMs 1000)) := by
  decide

/-- C4 (amended): on a reconciliation tick with target depth 5 and 2
recently-added tracks recognized in the filtered queue, the deficit is
3; with no remote failure exactly 3 select-add-increment sequences run
with the configured 1000 ms delay *between* consecutive additions
(2 delays — after each addition except the last, never before the
first); a failure on the 2nd attempt abandons only that tick's
remaining additions (2 attempts run, the tick function still returns,
so the timer's next run is unaffected) and leaves exactly 1 successful
increment from that tick. -/
theorem c4_tick_top_up (st : ShuffleState) (ctx : String) (allTracks : List TrackInfo)
    (db : Db) (queue : List String) (uri pid : String) (rnd : Nat → Nat) (now : Nat)
    (hpid : st.stsdPlaylistId = some pid)
    (hplay : strIncludes uri pid = true)
    (hcov : TracksCover allTracks ctx db) (hrow : HasCtxRow ctx db)
    (hstill : (tickStillInQueue st db ctx queue).length = 2) :
    ((queueMonitorTick true true (some uri) st ctx allTracks 5 (some queue) rnd
        (fun _ => false) now db).2.countP evAddOk = 3 ∧
     (queueMonitorTick true true (some uri) st ctx allTracks 5 (some queue) rnd
        (fun _ => false) now db).2.countP evIsInc = 3 ∧
     (queueMonitorTick true true (some uri) st ctx allTracks 5 (some queue) rnd
        (fun _ => false) now db).2.count (Ev.delayMs 1000) = 2) ∧
    ((queueMonitorTick true true (some uri) st ctx allTracks 5 (some queue) rnd
        (fun j => j == 1) now db).2.countP evAddOk = 1 ∧
     (queueMonitorTick true true (some uri) st ctx allTracks 5 (some queue) rnd
        (fun j => j == 1) now db).2.countP evIsInc = 1 ∧
     (queueMonitorTick true true (some uri) st ctx allTracks 5 (some queue) rnd
        (fun j => j == 1) now db).2.countP evAddErr = 1) := by
  have hg : ∀ ae : Nat → Bool,
      queueMonitorTick true true (some uri) st ctx allTracks 5 (some queue) rnd ae now db =
        topUpLoop ctx allTracks rnd ae now 3 0 db := by
    intro ae
    unfold queueMonitorTick
    simp [hpid, hplay, hstill]
  constructor
  · rw [hg]
    exact topUpLoop_noErr_counts ctx allTracks rnd (fun _ => false) now (fun _ => rfl) 3 0 db
      hcov hrow
  · rw [hg]
    have h3 : (3 : Nat) = 1 + 2 := rfl
    rw [h3]
    exact topUpLoop_fail_on_second ctx allTracks rnd (fun j => j == 1) now 1 0 db
      hcov hrow rfl rfl

/-- Witness for C4 at the concrete tick of the counterexample store:
both the no-failure and the fail-on-second-attempt conclusions. -/
theorem c4_tick_top_up_witness :
    ((queueMonitorTick true true (some "spotify:playlist:pid")
      ⟨true, some "c", [], none, none, some "pid", none⟩ "c"
      [⟨"a", "a", "A", "X", 1⟩, ⟨"b", "b", "B", "X", 1⟩, ⟨"t3", "t3", "T", "X", 1⟩] 5
      (some ["a", "b"]) (fun _ => 0) (fun _ => false) 20
      [⟨"c", "a", 1, some 10⟩, ⟨"c", "b", 1, some 9⟩, ⟨"c", "t3", 0, none⟩]).2.countP evAddOk = 3 ∧
     (queueMonitorTick true true (some "spotify:playlist:pid")
      ⟨true, some "c", [], none, none, some "pid", none⟩ "c"
      [⟨"a", "a", "A", "X", 1⟩, ⟨"b", "b", "B", "X", 1⟩, ⟨"t3", "t3", "T", "X", 1⟩] 5
      (some ["a", "b"]) (fun _ => 0) (fun _ => false) 20
      [⟨"c", "a", 1, some 10⟩, ⟨"c", "b", 1, some 9⟩, ⟨"c", "t3", 0, none⟩]).2.countP evIsInc = 3 ∧
     (queueMonitorTick true true (some "spotify:playlist:pid")
      ⟨true, some "c", [], none, none, some "pid", none⟩ "c"
      [⟨"a", "a", "A", "X", 1⟩, ⟨"b", "b", "B", "X", 1⟩, ⟨"t3", "t3", "T", "X", 1⟩] 5
      (some ["a", "b"]) (fun _ => 0) (fun _ => false) 20
      [⟨"c", "a", 1, some 10⟩, ⟨"c", "b", 1, some 9⟩, ⟨"c", "t3", 0, none⟩]).2.count (Ev.delayMs 1000) = 2) ∧
    ((queueMonitorTick true true (some "spotify:playlist:pid")
      ⟨true, some "c", [], none, none, some "pid", none⟩ "c"
      [⟨"a", "a", "A", "X", 1⟩, ⟨"b", "b", "B", "X", 1⟩, ⟨"t3", "t3", "T", "X", 1⟩] 5
      (some ["a", "b"]) (fun _ => 0) (fun j => j == 1) 20
      [⟨"c", "a", 1, some 10⟩, ⟨"c", "b", 1, some 9⟩, ⟨"c", "t3", 0, none⟩]).2.countP evAddOk = 1 ∧
     (queueMonitorTick true true (some "spotify:playlist:pid")
      ⟨true, some "c", [], none, none, some "pid", none⟩ "c"
      [⟨"a", "a", "A", "X", 1⟩, ⟨"b", "b", "B", "X", 1⟩, ⟨"t3", "t3", "T", "X", 1⟩] 5
      (some ["a", "b"]) (fun _ => 0) (fun j => j == 1) 20
      [⟨"c", "a", 1, some 10⟩, ⟨"c", "b", 1, some 9⟩, ⟨"c", "t3", 0, none⟩]).2.countP evIsInc = 1 ∧
     (queueMonitorTick true true (some "spotify:playlist:pid")
      ⟨true, some "c", [], none, none, some "pid", none⟩ "c"
      [⟨"a", "a", "A", "X", 1⟩, ⟨"b", "b", "B", "X", 1⟩, ⟨"t3", "t3", "T", "X", 1⟩] 5
      (some ["a", "b"]) (fun _ => 0) (fun j => j == 1) 20
      [⟨"c", "a", 1, some 10⟩, ⟨"c", "b", 1, some 9⟩, ⟨"c", "t3", 0, none⟩]).2.countP evAddErr = 1) :=
  c4_tick_top_up ⟨true, some "c", [], none, none, some "pid", none⟩ "c"
    [⟨"a", "a", "A", "X", 1⟩, ⟨"b", "b", "B", "X", 1⟩, ⟨"t3", "t3", "T", "X", 1⟩]
    [⟨"c", "a", 1, some 10⟩, ⟨"c", "b", 1, some 9⟩, ⟨"c", "t3", 0, none⟩]
    ["a", "b"] "spotify:playlist:pid" "pid" (fun _ => 0) 20
    rfl (by decide) (by decide) (by decide) (by decide)
